import Mathlib

/-!
Verification of the card_portfolio repository.

Shallow embedding conventions:
- JavaScript strings are modelled as `List Char` (`JsString`); JavaScript
  numbers as `ℚ` (exact rational semantics for the arithmetic the code
  performs); `NaN` as `none` in an `Option`.
- The SQL layer reached through the ORM is modelled over an in-memory
  `List Card`; the drizzle operators `eq`, `like`, `gte`, `lte`, `and`,
  `or`, `orderBy` are given their PostgreSQL meaning on that list.
- The pseudo-random price generator is parameterised by an oracle
  `frac : Int → ℚ` standing for the value `sin(seed) * 10000` minus its
  floor; real-number semantics gives `0 ≤ frac seed < 1` for every seed,
  which theorems take as a hypothesis.
-/

/-- A JavaScript string, modelled as its list of characters. -/
abbrev JsString := List Char

/-- Substring test: models both `String.prototype.includes` and the SQL
predicate `column LIKE ESCAPED` for a pattern of the shape
percent-needle-percent when the needle contains no wildcard
metacharacter (`%` or `_`) and no backslash, the default `LIKE` escape
character of PostgreSQL.  PostgreSQL `LIKE` is case-sensitive. -/
def hasSubstr (needle : JsString) : JsString → Bool
  | [] => needle.isEmpty
  | c :: t => needle.isPrefixOf (c :: t) || hasSubstr needle t

/-- Models `String.prototype.toLowerCase` (ASCII range, as used by the code). -/
def jsToLower (s : JsString) : JsString := s.map Char.toLower

/-- Models `String.prototype.trim`. -/
def jsTrim (s : JsString) : JsString :=
  ((s.dropWhile Char.isWhitespace).reverse.dropWhile Char.isWhitespace).reverse

/-- Models `String.prototype.split` with a one-character separator. -/
def jsSplit (sep : Char) : JsString → List JsString
  | [] => [[]]
  | c :: rest =>
    if c = sep then [] :: jsSplit sep rest
    else
      match jsSplit sep rest with
      | [] => [[c]]
      | g :: gs => (c :: g) :: gs

/-- Numeric value of a list of decimal digit characters. -/
def digitsVal (s : JsString) : Nat :=
  s.foldl (fun acc c => acc * 10 + (c.toNat - 48)) 0

/-- Models the JavaScript `Number` conversion on the inputs the code feeds
it: the empty string converts to `0`, a string of decimal digits to its
value, and anything else is modelled as `NaN` (`none`).  (Signs, blanks
and decimal points never reach this conversion in the claims below.) -/
def jsNumber (s : JsString) : Option Int :=
  if s.isEmpty then some 0
  else if s.all Char.isDigit then some (digitsVal s : Int)
  else none

/-- Models `Number` applied to a possibly-undefined value:
`Number(undefined)` is `NaN`. -/
def jsNumberU (s : Option JsString) : Option Int :=
  match s with
  | some s => jsNumber s
  | none => none

/-- Models `parseInt(s, 10)`: parses the longest leading run of decimal
digits; an empty run gives `NaN` (`none`). -/
def jsParseInt (s : JsString) : Option Int :=
  let ds := s.takeWhile Char.isDigit
  if ds.isEmpty then none else some (digitsVal ds : Int)

/-- Models `parseFloat`: leading decimal digits with an optional fraction
part; no leading digits gives `NaN` (`none`). -/
def jsParseFloat (s : JsString) : Option ℚ :=
  match s.takeWhile Char.isDigit with
  | [] => none
  | ds =>
    match s.drop ds.length with
    | '.' :: fs =>
      let fds := fs.takeWhile Char.isDigit
      some ((digitsVal ds : ℚ) + (digitsVal fds : ℚ) / 10 ^ fds.length)
    | _ => some (digitsVal ds : ℚ)

/-- Models full-string `Number` conversion for decimal numerals with an
optional fraction part, as used by the zod coercion on `purchasePrice`. -/
def jsNumberRat (s : JsString) : Option ℚ :=
  if s.isEmpty then some 0
  else
    let ds := s.takeWhile Char.isDigit
    match s.drop ds.length with
    | [] => if ds.isEmpty then none else some (digitsVal ds : ℚ)
    | '.' :: fs =>
      if fs.all Char.isDigit ∧ ¬ds.isEmpty then
        some ((digitsVal ds : ℚ) + (digitsVal fs : ℚ) / 10 ^ fs.length)
      else none
    | _ => none

/-- Truthiness of an optional JavaScript string (`undefined` and the empty
string are falsy). -/
def truthy : Option JsString → Bool
  | some s => !s.isEmpty
  | none => false

/-!
Embedding of `src/server/storage.ts` (DatabaseStorage) over an in-memory
card table.  A `Card` is a row of the `cards` table of
`src/shared/shema.ts`; rows created through `insertCardSchema` always
carry a string in the columns that are nullable with default empty
string, so those columns are modelled as `JsString`.
-/

structure Card where
  id : Int
  playerName : JsString
  sport : JsString
  year : Int
  brand : JsString
  cardSet : JsString
  condition : JsString
  purchasePrice : ℚ
  currentValue : ℚ
  notes : JsString
  imageUrl : JsString
  cardNumber : JsString
  userId : Option Int
  createdAt : Int
deriving DecidableEq

/-- Query parameters of `DatabaseStorage.getFilteredCards`. -/
structure FilterParams where
  search : Option JsString := none
  sport : Option JsString := none
  year : Option JsString := none
  brand : Option JsString := none
  condition : Option JsString := none
  sortBy : Option JsString := none

/-- The `or(like(...), ...)` search filter of `getFilteredCards`
(storage.ts lines 109-119): the pattern is percent-search-percent on
player name, brand, card set and notes.  PostgreSQL `LIKE`, hence
case-sensitive; the model is faithful for search strings free of the
wildcards `%` and `_` and of the backslash escape character (a backslash
in the pattern escapes the next character, and a trailing backslash is a
pattern error). -/
def searchFilter (s : JsString) (c : Card) : Bool :=
  hasSubstr s c.playerName || hasSubstr s c.brand ||
    hasSubstr s c.cardSet || hasSubstr s c.notes

/-- The year filter of `getFilteredCards` (storage.ts lines 127-136):
a value containing a dash is split and treated as an inclusive range via
`gte`/`lte`; otherwise `eq(cards.year, Number(value))`.  A `NaN` bound
(`none`) makes the comparison false, as in SQL with a `NaN` parameter. -/
def yearFilter (y : JsString) (c : Card) : Bool :=
  if y.contains '-' then
    match jsNumberU (jsSplit '-' y)[0]?, jsNumberU (jsSplit '-' y)[1]? with
    | some a, some b => decide (a ≤ c.year) && decide (c.year ≤ b)
    | _, _ => false
  else
    match jsNumber y with
    | some n => c.year == n
    | none => false

/-- Guard `params.x && params.x !== 'all'` used by the sport, year, brand
and condition filters. -/
def activeNonAll (o : Option JsString) : Bool :=
  truthy o && !((o.getD []) == "all".toList)

/-- The filter list built by `getFilteredCards` (storage.ts lines 106-146),
in source order; the query ANDs them together. -/
def cardFilters (p : FilterParams) : List (Card → Bool) :=
  (if truthy p.search then [searchFilter (p.search.getD [])] else []) ++
  (if activeNonAll p.sport then [fun c => c.sport == p.sport.getD []] else []) ++
  (if activeNonAll p.year then [yearFilter (p.year.getD [])] else []) ++
  (if activeNonAll p.brand then [fun c => c.brand == p.brand.getD []] else []) ++
  (if activeNonAll p.condition then [fun c => c.condition == p.condition.getD []] else [])

/-- Lexicographic order on text used to model database text ordering. -/
def strLe : JsString → JsString → Bool
  | [], _ => true
  | _ :: _, [] => false
  | a :: as, b :: bs => if a = b then strLe as bs else decide (a < b)

/-- The `orderBy` switch of `getFilteredCards` (storage.ts lines 154-184);
a missing or unrecognised `sortBy` falls back to descending id. -/
def applySort (sortBy : Option JsString) (l : List Card) : List Card :=
  if sortBy == some "recent".toList then
    l.mergeSort (fun a b => decide (b.createdAt ≤ a.createdAt))
  else if sortBy == some "playerNameAsc".toList then
    l.mergeSort (fun a b => strLe a.playerName b.playerName)
  else if sortBy == some "playerNameDesc".toList then
    l.mergeSort (fun a b => strLe b.playerName a.playerName)
  else if sortBy == some "valueDesc".toList then
    l.mergeSort (fun a b => decide (b.currentValue ≤ a.currentValue))
  else if sortBy == some "valueAsc".toList then
    l.mergeSort (fun a b => decide (a.currentValue ≤ b.currentValue))
  else if sortBy == some "yearDesc".toList then
    l.mergeSort (fun a b => decide (b.year ≤ a.year))
  else if sortBy == some "yearAsc".toList then
    l.mergeSort (fun a b => decide (a.year ≤ b.year))
  else
    l.mergeSort (fun a b => decide (b.id ≤ a.id))

/-- Embedding of `DatabaseStorage.getFilteredCards` (storage.ts lines
95-187): select rows passing every built filter, then sort. -/
def getFilteredCards (p : FilterParams) (db : List Card) : List Card :=
  applySort p.sortBy (db.filter (fun c => (cardFilters p).all (fun f => f c)))

/-- Embedding of `DatabaseStorage.deleteAllCards` (storage.ts lines 84-93):
select the ids, count them, delete every row, return the count.  The
sequential model has no concurrent writer between the two statements. -/
def deleteAllCards (db : List Card) : Nat × List Card :=
  ((db.map (fun c => c.id)).length, [])

/-!
Embedding of `insertCardSchema` from `src/shared/shema.ts` and of the
column-mapping import pipeline of `POST /api/import`
(`src/server/routes.ts` lines 202-261).

A dynamic JavaScript value reaching the pipeline is either a string (CSV
cell) or a number (XLSX cell or the result of a numeric coercion); `NaN`
is `none`.  A row object and the candidate record are association lists
from key to value.
-/

/-- A dynamic JavaScript value as it occurs in the import pipeline. -/
inductive JsValue where
  | str : JsString → JsValue
  | num : Option ℚ → JsValue
deriving DecidableEq

/-- Truthiness of a dynamic value: empty string, `0` and `NaN` are falsy. -/
def JsValue.truthy : JsValue → Bool
  | .str s => !s.isEmpty
  | .num (some q) => !decide (q = 0)
  | .num none => false

/-- A JavaScript object with string keys, as an association list. -/
abbrev Obj := List (JsString × JsValue)

/-- Property read `o[k]`; `none` models `undefined`. -/
def objGet (o : Obj) (k : JsString) : Option JsValue :=
  match o with
  | [] => none
  | (k2, v) :: t => if k2 = k then some v else objGet t k

/-- Property assignment `o[k] = v`. -/
def objSet (o : Obj) (k : JsString) (v : JsValue) : Obj :=
  match o with
  | [] => [(k, v)]
  | (k2, v2) :: t => if k2 = k then (k, v) :: t else (k2, v2) :: objSet t k v

/-- One iteration of the mapping loop of the import handler (routes.ts
lines 206-210): copy the source column into the candidate when the mapped
column name is truthy, differs from the string none, and is present in
the row. -/
def mapRecordStep (record : Obj) (acc : Obj) (entry : JsString × JsString) : Obj :=
  if ¬entry.2.isEmpty ∧ entry.2 ≠ "none".toList then
    match objGet record entry.2 with
    | some v => objSet acc entry.1 v
    | none => acc
  else acc

/-- The candidate record built from one parsed row by the
`Object.entries(mappedColumns)` loop (routes.ts lines 203-210). -/
def mapRecord (columnMap : List (JsString × JsString)) (record : Obj) : Obj :=
  columnMap.foldl (mapRecordStep record) []

/-- Models `parseInt` applied to a dynamic value (string or number). -/
def parseIntV : JsValue → Option ℚ
  | .str s => (jsParseInt s).map (fun n => (n : ℚ))
  | .num q => q.map (fun x => ((x.num / (x.den : Int) : Int) : ℚ))

/-- Models `parseFloat` applied to a dynamic value. -/
def parseFloatV : JsValue → Option ℚ
  | .str s => jsParseFloat s
  | .num q => q

/-- The numeric coercions of the import handler (routes.ts lines 212-223):
truthy `year`, `purchasePrice` and `currentValue` fields are replaced by
their parsed numeric value. -/
def coerceRecord (rec : Obj) : Obj :=
  let r1 := match objGet rec "year".toList with
    | some v => if v.truthy then objSet rec "year".toList (.num (parseIntV v)) else rec
    | none => rec
  let r2 := match objGet r1 "purchasePrice".toList with
    | some v => if v.truthy then objSet r1 "purchasePrice".toList (.num (parseFloatV v)) else r1
    | none => r1
  match objGet r2 "currentValue".toList with
  | some v => if v.truthy then objSet r2 "currentValue".toList (.num (parseFloatV v)) else r2
  | none => r2

/-- The parse result of `insertCardSchema` (shema.ts lines 33-48): the
shape accepted by `createCard`.  The columns given an explicit optional
default in the `extend` block carry that default when absent. -/
structure InsertCard where
  playerName : JsString
  sport : JsString
  year : ℚ
  brand : JsString
  condition : JsString
  cardSet : JsString
  currentValue : ℚ
  notes : JsString
  imageUrl : JsString
  cardNumber : JsString
  userId : Option ℚ
  purchasePrice : ℚ
deriving DecidableEq

/-- Required string field of the zod schema: present and a string. -/
def expectStr (v : Option JsValue) : Option JsString :=
  match v with
  | some (.str s) => some s
  | _ => none

/-- Required numeric field of the zod schema: present, a number, not `NaN`. -/
def expectNum (v : Option JsValue) : Option ℚ :=
  match v with
  | some (.num (some q)) => some q
  | _ => none

/-- Optional string field with a default (`z.string().optional().default(d)`). -/
def optStr (v : Option JsValue) (d : JsString) : Option JsString :=
  match v with
  | none => some d
  | some (.str s) => some s
  | some (.num _) => none

/-- Optional numeric field with default zero
(`z.number().optional().default(0)`). -/
def optNum (v : Option JsValue) : Option ℚ :=
  match v with
  | none => some 0
  | some (.num (some q)) => some q
  | _ => none

/-- Optional nullable numeric field (`z.number().optional().nullable()`). -/
def optNullableNum (v : Option JsValue) : Option (Option ℚ) :=
  match v with
  | none => some none
  | some (.num (some q)) => some (some q)
  | _ => none

/-- Coerced numeric field with default zero
(`z.coerce.number().default(0)`): absent takes the default, otherwise the
value is converted with `Number` and `NaN` is rejected. -/
def coercedNum (v : Option JsValue) : Option ℚ :=
  match v with
  | none => some 0
  | some (.str s) => jsNumberRat s
  | some (.num (some q)) => some q
  | some (.num none) => none

/-- Embedding of `insertCardSchema.safeParse` (shema.ts lines 33-48).
`playerName`, `sport`, `brand` and `condition` are non-null text columns
without a database default, so `createInsertSchema` makes them required
strings; `year` is a required number; the fields listed in the `extend`
block are optional with the stated defaults.  `none` models a failed
parse. -/
def insertCardSchema (rec : Obj) : Option InsertCard := do
  let playerName ← expectStr (objGet rec "playerName".toList)
  let sport ← expectStr (objGet rec "sport".toList)
  let year ← expectNum (objGet rec "year".toList)
  let brand ← expectStr (objGet rec "brand".toList)
  let condition ← expectStr (objGet rec "condition".toList)
  let cardSet ← optStr (objGet rec "cardSet".toList) []
  let currentValue ← optNum (objGet rec "currentValue".toList)
  let notes ← optStr (objGet rec "notes".toList) []
  let imageUrl ← optStr (objGet rec "imageUrl".toList) []
  let cardNumber ← optStr (objGet rec "cardNumber".toList) []
  let userId ← optNullableNum (objGet rec "userId".toList)
  let purchasePrice ← coercedNum (objGet rec "purchasePrice".toList)
  pure { playerName, sport, year, brand, condition, cardSet, currentValue,
         notes, imageUrl, cardNumber, userId, purchasePrice }

/-- Outcome recorded for one row by the import handler (routes.ts lines
230-251): success carries the stored card, failure carries the error text
and the original candidate record.  The datastore insert is modelled as
always succeeding, so the catch branch for a storage error is dead in
this model. -/
inductive ImportOutcome where
  | ok : InsertCard → ImportOutcome
  | fail : JsString → Obj → ImportOutcome
deriving DecidableEq

/-- The `success` flag of a row outcome. -/
def ImportOutcome.success : ImportOutcome → Bool
  | .ok _ => true
  | .fail _ _ => false

/-- The preserved original record of a failed row (`data` on failure). -/
def ImportOutcome.failData : ImportOutcome → Option Obj
  | .ok _ => none
  | .fail _ r => some r

/-- The player-name-or-Unknown fragment of the validation error message. -/
def playerNameOrUnknown (rec : Obj) : JsString :=
  match objGet rec "playerName".toList with
  | some (.str s) => if s.isEmpty then "Unknown".toList else s
  | _ => "Unknown".toList

/-- Validate-and-persist step for one candidate record (routes.ts lines
230-243). -/
def processImportRecord (rec : Obj) : ImportOutcome :=
  match insertCardSchema rec with
  | some card => .ok card
  | none => .fail ("Validation error: ".toList ++ playerNameOrUnknown rec) rec

/-- The per-row outcome list of the import response (routes.ts lines
229-252): `Promise.all` over the mapped records preserves positional
order, so the result list is the map of the row list. -/
def importResults (records : List Obj) (columnMap : List (JsString × JsString)) :
    List ImportOutcome :=
  records.map (fun r => processImportRecord (coerceRecord (mapRecord columnMap r)))

/-- The `successful` count of the import response message (routes.ts line 255). -/
def successfulCount (rs : List ImportOutcome) : Nat :=
  (rs.filter (fun r => r.success)).length

/-- The `failed` count of the import response message (routes.ts line 256). -/
def failedCount (rs : List ImportOutcome) : Nat :=
  (rs.filter (fun r => !r.success)).length

/-!
Embedding of `src/priceService.ts` (`scrapeEbayPrices`).  The generator
advances an integer seed by one per call and derives a value from the
fractional part of `sin(seed) * 10000`; that fractional part is supplied
by the oracle `frac : Int → ℚ`, and real-number semantics guarantees
`0 ≤ frac seed < 1`.  All arithmetic is modelled exactly over `ℚ`.
-/

/-- A sold-listing sample of the price analysis. -/
structure EbaySoldItem where
  title : JsString
  price : ℚ
  date : JsString
  link : JsString
  imageUrl : JsString
deriving DecidableEq

/-- The price analysis returned by `scrapeEbayPrices`. -/
structure PriceAnalysis where
  items : List EbaySoldItem
  averagePrice : ℚ
  minPrice : ℚ
  maxPrice : ℚ
  medianPrice : ℚ
  totalResults : Nat
  searchQuery : JsString
deriving DecidableEq

/-- Seed initialisation (priceService.ts line 32): the sum of the
character codes of the search query. -/
def initialSeed (q : JsString) : Int :=
  ((q.map Char.toNat).sum : Nat)

/-- The seeded generator (priceService.ts lines 33-37): one call reads the
fractional part for the current seed, advances the seed, and returns
`Math.floor(r * (max - min + 1) + min)`. -/
def random (frac : Int → ℚ) (seed mn mx : Int) : Int × Int :=
  (⌊frac seed * ((mx : ℚ) - (mn : ℚ) + 1) + (mn : ℚ)⌋, seed + 1)

/-- The keyword bonuses applied to the base price of five dollars
(priceService.ts lines 40-52), in source order. -/
def computeBasePrice (q : JsString) : ℚ :=
  let terms := jsToLower q
  let b : ℚ := 5
  let b := if hasSubstr "rookie".toList terms || hasSubstr "rc".toList terms then b + 20 else b
  let b := if hasSubstr "autograph".toList terms || hasSubstr "auto".toList terms then b + 50 else b
  let b := if hasSubstr "1st".toList terms || hasSubstr "first edition".toList terms then b + 30 else b
  let b := if hasSubstr "refractor".toList terms || hasSubstr "prizm".toList terms then b + 15 else b
  let b := if hasSubstr "patch".toList terms || hasSubstr "jersey".toList terms then b + 25 else b
  let b := if hasSubstr "psa".toList terms || hasSubstr "bgs".toList terms then b + 40 else b
  let b := if hasSubstr "parallel".toList terms || hasSubstr "numbered".toList terms then b + 20 else b
  let b := if hasSubstr "ssp".toList terms || hasSubstr "rare".toList terms then b + 35 else b
  b

/-- The condition tags of the generated titles (priceService.ts line 70). -/
def conditionTerms : List JsString :=
  ["Mint".toList, "NM".toList, "NM-MT".toList, "VG-EX".toList, "GD".toList]

/-- The flourish phrases of the generated titles (priceService.ts line 71). -/
def extraTerms : List JsString :=
  ["Shipped in Top Loader".toList, "w/ One Touch".toList, "HOT!".toList, "LOOK".toList]

/-- The seven-value date pool (priceService.ts line 62). -/
def dates : List JsString :=
  ["May 1".toList, "May 2".toList, "May 3".toList, "May 4".toList,
   "May 5".toList, "May 6".toList, "May 7".toList]

/-- JavaScript array indexing with an integer index; `none` models
`undefined` for an out-of-bounds access. -/
def jsIndex (l : List JsString) (i : Int) : Option JsString :=
  if i < 0 then none else l[i.toNat]?

/-- Models `parseFloat(x.toFixed(2))`: rounding to two decimals, halves
rounded up. -/
def round2 (q : ℚ) : ℚ :=
  (⌊q * 100 + 1 / 2⌋ : ℚ) / 100

/-- Decimal numeral of a natural number. -/
def natDigits (n : Nat) : JsString :=
  Nat.toDigits 10 n

/-- Generation of one sold item (priceService.ts lines 64-83), threading
the seed through the generator calls in source order; the optional
flourish consumes a generator call only when the coin flip yields one. -/
def genItem (frac : Int → ℚ) (q : JsString) (basePrice : ℚ) (seed : Int) :
    EbaySoldItem × Int :=
  let rv := random frac seed (-40) 40
  let priceVariance := basePrice * ((rv.1 : ℚ) / 100)
  let price := basePrice + priceVariance
  let rc := random frac rv.2 0 ((conditionTerms.length : Int) - 1)
  let condition := (jsIndex conditionTerms rc.1).getD "undefined".toList
  let rf := random frac rc.2 0 1
  let er : JsString × Int :=
    if rf.1 == 1 then
      let re := random frac rf.2 0 ((extraTerms.length : Int) - 1)
      ((jsIndex extraTerms re.1).getD "undefined".toList, re.2)
    else ([], rf.2)
  let rd := random frac er.2 0 ((dates.length : Int) - 1)
  let date := (jsIndex dates rd.1).getD "undefined".toList
  let rl := random frac rd.2 100000000 999999999
  let ri := random frac rl.2 10000 99999
  ({ title := jsTrim (q ++ " - ".toList ++ condition ++ " ".toList ++ er.1),
     price := round2 price,
     date := date,
     link := "https://www.ebay.com/itm/".toList ++ natDigits rl.1.toNat,
     imageUrl := "https://i.ebayimg.com/images/g/".toList ++ natDigits ri.1.toNat
       ++ "/s-l1600.jpg".toList },
   ri.2)

/-- The generation loop (priceService.ts lines 64-83): `n` iterations in
ascending index order, items pushed in generation order. -/
def genItems (frac : Int → ℚ) (q : JsString) (basePrice : ℚ) :
    Nat → Int → List EbaySoldItem × Int
  | 0, seed => ([], seed)
  | n + 1, seed =>
    let first := genItem frac q basePrice seed
    let rest := genItems frac q basePrice n first.2
    (first.1 :: rest.1, rest.2)

/-- The full generated item set of one call of `scrapeEbayPrices`, before
the display truncation: base price perturbation, item count draw, then
the generation loop. -/
def generatedItems (frac : Int → ℚ) (searchQuery : JsString) : List EbaySoldItem :=
  let seed0 := initialSeed searchQuery
  let rp := random frac seed0 (-20) 20
  let basePrice := computeBasePrice searchQuery * (1 + (rp.1 : ℚ) / 100)
  let rn := random frac rp.2 5 15
  (genItems frac searchQuery basePrice rn.1.toNat rn.2).1

/-- Models `Math.min` over a nonempty spread list (the empty case, which
JavaScript maps to Infinity, is unreachable under the oracle bounds). -/
def jsMin : List ℚ → ℚ
  | [] => 0
  | [x] => x
  | x :: y :: t => min x (jsMin (y :: t))

/-- Models `Math.max` over a nonempty spread list. -/
def jsMax : List ℚ → ℚ
  | [] => 0
  | [x] => x
  | x :: y :: t => max x (jsMax (y :: t))

/-- Models `prices.reduce((sum, price) => sum + price, 0)`. -/
def jsSum (l : List ℚ) : ℚ :=
  l.foldl (fun s p => s + p) 0

/-- Models `[...prices].sort((a, b) => a - b)`: stable ascending numeric
sort. -/
def jsSortNums (l : List ℚ) : List ℚ :=
  l.mergeSort (fun a b => decide (a ≤ b))

/-- The median computation (priceService.ts lines 96-104) on the sorted
price list.  Indexing is modelled with a zero fallback; for the even,
nonempty lengths produced by the generator both indices are in bounds, so
the fallback is dead there. -/
def jsMedian (sorted : List ℚ) : ℚ :=
  let middle := sorted.length / 2
  if sorted.length % 2 == 0 then
    (sorted.getD (middle - 1) 0 + sorted.getD middle 0) / 2
  else
    sorted.getD middle 0

/-- Embedding of `scrapeEbayPrices` (priceService.ts lines 23-129).  The
function is pure: its output depends only on the oracle and the search
query.  Statistics are computed over the full generated item list; the
returned item list is the first ten entries; `totalResults` is the length
of the full list.  The catch branch of the source is dead in this model
because no modelled operation throws. -/
def scrapeEbayPrices (frac : Int → ℚ) (searchQuery : JsString) : PriceAnalysis :=
  let items := generatedItems frac searchQuery
  let prices := items.map (fun it => it.price)
  let averagePrice := jsSum prices / (prices.length : ℚ)
  let minPrice := jsMin prices
  let maxPrice := jsMax prices
  let sortedPrices := jsSortNums prices
  let medianPrice := jsMedian sortedPrices
  { items := items.take 10,
    averagePrice := averagePrice,
    minPrice := minPrice,
    maxPrice := maxPrice,
    medianPrice := medianPrice,
    totalResults := items.length,
    searchQuery := searchQuery }

/-!
Embedding of the deterministic tail of `identifyCardFromImage`
(`src/imageRecognitionService.ts` lines 109-132): the mapping of the
parsed vision-model JSON onto card fields and the player-name check.  The
network call and the JSON extraction are external; the embedding starts
from the parsed `cardData` object.
-/

/-- The parsed JSON object returned by the vision model, with the keys the
prompt requests; a missing key is `none`. -/
structure CardData where
  playerName : Option JsString := none
  sport : Option JsString := none
  year : Option JsString := none
  brand : Option JsString := none
  cardSet : Option JsString := none
  cardNumber : Option JsString := none
  condition : Option JsString := none
deriving DecidableEq

/-- The partial card assembled by `identifyCardFromImage`; `year` is
`none` when `parseInt` yields `NaN`. -/
structure RecognizedCard where
  playerName : JsString
  sport : JsString
  year : Option Int
  brand : JsString
  cardSet : JsString
  cardNumber : JsString
  condition : JsString
  purchasePrice : ℚ
  notes : JsString
  imageUrl : JsString
deriving DecidableEq

/-- The result shape of `identifyCardFromImage`. -/
structure RecognitionResult where
  success : Bool
  card : Option RecognizedCard
  error : Option JsString
deriving DecidableEq

/-- Models `x || fallback-empty-string` on an optional string. -/
def jsOrEmpty (o : Option JsString) : JsString :=
  match o with
  | some s => s
  | none => []

/-- Models `x?.toLowerCase() || d`. -/
def lowerOrDefault (o : Option JsString) (d : JsString) : JsString :=
  match o with
  | some s => if s.isEmpty then d else jsToLower s
  | none => d

/-- The card assembled from the parsed vision response
(imageRecognitionService.ts lines 110-121). -/
def recognizedCardOf (d : CardData) (currentYear : Int) : RecognizedCard :=
  { playerName := jsOrEmpty d.playerName,
    sport := lowerOrDefault d.sport "other".toList,
    year := if truthy d.year then jsParseInt (d.year.getD []) else some currentYear,
    brand := jsOrEmpty d.brand,
    cardSet := jsOrEmpty d.cardSet,
    cardNumber := jsOrEmpty d.cardNumber,
    condition := lowerOrDefault d.condition "new".toList,
    purchasePrice := 0,
    notes := jsTrim (jsOrEmpty d.cardSet ++ " ".toList ++ jsOrEmpty d.cardNumber),
    imageUrl := [] }

/-- Embedding of the validation tail of `identifyCardFromImage`
(imageRecognitionService.ts lines 123-132): an empty player name yields a
failure that still carries the assembled card next to the error message;
otherwise the call succeeds. -/
def identifyCardFromImage (d : CardData) (currentYear : Int) : RecognitionResult :=
  let card := recognizedCardOf d currentYear
  if card.playerName.isEmpty then
    { success := false,
      card := some card,
      error := some ("Could not identify player name from the image. "
        ++ "Please enter card details manually.").toList }
  else
    { success := true, card := some card, error := none }

/-!
Definitions taken from the wording of the specification, used to compare
the spec with the code where a claim asserts a refinement between them.
-/

/-- Spec wording for the search filter of claim C1: the search text
appears as a case-insensitive substring of player name, brand, card set
or notes. -/
def specCaseInsensitiveMatch (s : JsString) (c : Card) : Bool :=
  hasSubstr (jsToLower s) (jsToLower c.playerName) ||
  hasSubstr (jsToLower s) (jsToLower c.brand) ||
  hasSubstr (jsToLower s) (jsToLower c.cardSet) ||
  hasSubstr (jsToLower s) (jsToLower c.notes)

/-!
Concrete inputs used by counterexamples and witnesses.
-/

/-- A stored card whose brand is Topps but which contains the lower-case
text topps nowhere. -/
def toppsCard : Card :=
  { id := 1, playerName := "John Doe".toList, sport := "baseball".toList,
    year := 2020, brand := "Topps".toList, cardSet := [],
    condition := "raw".toList, purchasePrice := 0, currentValue := 0,
    notes := [], imageUrl := [], cardNumber := [], userId := none,
    createdAt := 0 }

/-- The list request with only the search filter set to topps. -/
def searchToppsParams : FilterParams := { search := some "topps".toList }

/-- A stored card of year 2015, used by year-filter witnesses. -/
def card2015 : Card :=
  { toppsCard with id := 3, year := 2015 }

/-- The column mapping of the C2 scenario: every required column is mapped
except sport, which is mapped to the literal none. -/
def sportNoneMap : List (JsString × JsString) :=
  [("playerName".toList, "Player".toList),
   ("sport".toList, "none".toList),
   ("year".toList, "Year".toList),
   ("brand".toList, "Brand".toList),
   ("condition".toList, "Condition".toList)]

/-- A parsed file row carrying valid values for every mapped column. -/
def rowJohnDoe : Obj :=
  [("Player".toList, .str "John Doe".toList),
   ("Year".toList, .str "2015".toList),
   ("Brand".toList, .str "Topps".toList),
   ("Condition".toList, .str "raw".toList)]

/-!
Helper lemmas about the query layer.
-/

theorem applySort_mem {c : Card} {sb : Option JsString} {l : List Card} :
    c ∈ applySort sb l ↔ c ∈ l := by
  unfold applySort
  repeat' split
  all_goals exact List.mem_mergeSort

theorem applySort_nil (sb : Option JsString) : applySort sb [] = [] := by
  unfold applySort
  repeat' split
  all_goals exact List.mergeSort_nil

theorem getFilteredCards_mem {c : Card} {p : FilterParams} {db : List Card} :
    c ∈ getFilteredCards p db ↔
      c ∈ db ∧ (cardFilters p).all (fun f => f c) = true := by
  unfold getFilteredCards
  rw [applySort_mem, List.mem_filter]

theorem activeNonAll_some {y : JsString} (hne : y ≠ []) (hall : y ≠ "all".toList) :
    activeNonAll (some y) = true := by
  unfold activeNonAll truthy
  have hall2 : y ≠ ['a', 'l', 'l'] := fun h => hall (h.trans (by decide))
  simp [List.isEmpty_iff, hne, beq_eq_false_iff_ne, hall2]

theorem activeNonAll_of_contains_dash {y : JsString} (h : y.contains '-' = true) :
    activeNonAll (some y) = true := by
  have hne : y ≠ [] := by rintro rfl; exact absurd h (by decide)
  have hall : y ≠ "all".toList := by rintro rfl; exact absurd h (by decide)
  exact activeNonAll_some hne hall

/-- Claim C1, counterexample: the search text topps is a case-insensitive
substring of the brand Topps, so the claim requires `toppsCard` in the
result, but `getFilteredCards` builds the filter with the case-sensitive
SQL `LIKE` (drizzle `like`, not `ilike`) and excludes it. -/
theorem c1_counterexample :
    specCaseInsensitiveMatch "topps".toList toppsCard = true ∧
    toppsCard ∉ getFilteredCards searchToppsParams [toppsCard] := by
  refine ⟨by decide, ?_⟩
  intro hmem
  have h2 := (getFilteredCards_mem.mp hmem).2
  revert h2
  decide

/-- Claim C1 (amended): for every stored collection and every non-empty
search string without SQL wildcard metacharacters and without the
backslash escape character, the list operation with only the search
filter set returns exactly the cards in which the text appears as a
case-sensitive substring of player name, brand, card set or notes. -/
theorem c1_search_case_sensitive (db : List Card) (s : JsString) (c : Card)
    (hne : s ≠ []) (_hpct : '%' ∉ s) (_hund : '_' ∉ s) (_hesc : '\\' ∉ s) :
    c ∈ getFilteredCards { search := some s } db ↔
      c ∈ db ∧ (hasSubstr s c.playerName || hasSubstr s c.brand ||
        hasSubstr s c.cardSet || hasSubstr s c.notes) = true := by
  rw [getFilteredCards_mem]
  simp only [cardFilters, truthy, activeNonAll, List.isEmpty_iff, hne,
    Option.getD_some]
  simp [searchFilter, List.isEmpty_iff, hne]

/-- Witness for the amended claim C1 at a concrete collection: the search
text opp occurs case-sensitively in the brand Topps. -/
theorem c1_search_case_sensitive_witness :
    toppsCard ∈ getFilteredCards { search := some "opp".toList } [toppsCard] ↔
      toppsCard ∈ [toppsCard] ∧
        (hasSubstr "opp".toList toppsCard.playerName ||
         hasSubstr "opp".toList toppsCard.brand ||
         hasSubstr "opp".toList toppsCard.cardSet ||
         hasSubstr "opp".toList toppsCard.notes) = true :=
  c1_search_case_sensitive [toppsCard] "opp".toList toppsCard
    (by decide) (by decide) (by decide) (by decide)

theorem truthy_none : truthy none = false := rfl

theorem activeNonAll_none : activeNonAll none = false := rfl

theorem cardFilters_year {y : JsString} (h : activeNonAll (some y) = true) :
    cardFilters { year := some y } = [yearFilter y] := by
  simp [cardFilters, truthy_none, activeNonAll_none, h]

/-- Claim C3: a year filter of the shape start-dash-end returns exactly
the cards in the inclusive range, and a plain integer year filter returns
exactly the cards of that year.  The parsing hypotheses state the outcome
of the split and of the `Number` conversions on the filter string. -/
theorem c3_year_filter (db : List Card) (c : Card) (y : JsString) :
    (∀ a b : Int,
      y.contains '-' = true →
      jsNumberU (jsSplit '-' y)[0]? = some a →
      jsNumberU (jsSplit '-' y)[1]? = some b →
      (c ∈ getFilteredCards { year := some y } db ↔
        c ∈ db ∧ a ≤ c.year ∧ c.year ≤ b)) ∧
    (∀ n : Int,
      y.contains '-' = false →
      jsNumber y = some n →
      y ≠ [] → y ≠ "all".toList →
      (c ∈ getFilteredCards { year := some y } db ↔
        c ∈ db ∧ c.year = n)) := by
  constructor
  · intro a b hdash ha hb
    have hact := activeNonAll_of_contains_dash hdash
    rw [getFilteredCards_mem, cardFilters_year hact]
    simp only [List.all_cons, List.all_nil, Bool.and_true]
    have hmem : '-' ∈ y := by simpa using hdash
    simp [yearFilter, hdash, hmem, ha, hb, and_assoc]
  · intro n hdash hnum hne hall
    have hact := activeNonAll_some hne hall
    rw [getFilteredCards_mem, cardFilters_year hact]
    simp only [List.all_cons, List.all_nil, Bool.and_true]
    have hmem : '-' ∉ y := by simpa using hdash
    simp [yearFilter, hdash, hmem, hnum, beq_iff_eq]

/-- Witness for claim C3 at a concrete collection: the range filter
2010-2019 and the exact filter 2015 on a card of year 2015. -/
theorem c3_year_filter_witness :
    (card2015 ∈ getFilteredCards { year := some "2010-2019".toList } [card2015] ↔
      card2015 ∈ [card2015] ∧ 2010 ≤ card2015.year ∧ card2015.year ≤ 2019) ∧
    (card2015 ∈ getFilteredCards { year := some "2015".toList } [card2015] ↔
      card2015 ∈ [card2015] ∧ card2015.year = 2015) :=
  ⟨(c3_year_filter [card2015] card2015 "2010-2019".toList).1 2010 2019
      (by decide) (by decide) (by decide),
   (c3_year_filter [card2015] card2015 "2015".toList).2 2015
      (by decide) (by decide) (by decide) (by decide)⟩

/-- Claim C7: in the sequential model, `deleteAllCards` returns exactly
the number of rows present before the call, and a subsequent unfiltered
list over the resulting table is empty. -/
theorem c7_delete_all (db : List Card) :
    (deleteAllCards db).1 = db.length ∧
    getFilteredCards {} (deleteAllCards db).2 = [] := by
  constructor
  · simp [deleteAllCards]
  · show getFilteredCards {} [] = []
    unfold getFilteredCards
    rw [List.filter_nil]
    exact applySort_nil _

/-!
Helper lemmas about the import pipeline objects.
-/

theorem objGet_objSet_ne {o : Obj} {k k2 : JsString} {v : JsValue} (h : k2 ≠ k) :
    objGet (objSet o k2 v) k = objGet o k := by
  induction o with
  | nil => simp [objSet, objGet, h]
  | cons p t ih =>
    obtain ⟨k3, v3⟩ := p
    by_cases hk : k3 = k2
    · subst hk
      simp [objSet, objGet, h]
    · simp only [objSet, if_neg hk]
      by_cases hk2 : k3 = k
      · simp [objGet, hk2]
      · simp [objGet, hk2, ih]

theorem mapRecordStep_sport {row acc : Obj} {e : JsString × JsString}
    (hacc : objGet acc "sport".toList = none)
    (h : e.1 = "sport".toList →
      e.2 = [] ∨ e.2 = "none".toList ∨ objGet row e.2 = none) :
    objGet (mapRecordStep row acc e) "sport".toList = none := by
  obtain ⟨cf, ff⟩ := e
  unfold mapRecordStep
  by_cases hcf : cf = "sport".toList
  · rcases h hcf with h1 | h1 | h1
    · subst h1; simpa using hacc
    · subst h1; simpa using hacc
    · by_cases hcond : ¬ff.isEmpty ∧ ff ≠ "none".toList
      · rw [if_pos hcond, h1]; exact hacc
      · rw [if_neg hcond]; exact hacc
  · by_cases hcond : ¬ff.isEmpty ∧ ff ≠ "none".toList
    · rw [if_pos hcond]
      cases hg : objGet row ff with
      | some v => exact (objGet_objSet_ne hcf).trans hacc
      | none => exact hacc
    · rw [if_neg hcond]; exact hacc

theorem foldl_mapRecordStep_sport (row : Obj) :
    ∀ (cmap : List (JsString × JsString)) (acc : Obj),
      (∀ e ∈ cmap, e.1 = "sport".toList →
        e.2 = [] ∨ e.2 = "none".toList ∨ objGet row e.2 = none) →
      objGet acc "sport".toList = none →
      objGet (cmap.foldl (mapRecordStep row) acc) "sport".toList = none
  | [], _, _, hacc => by simpa
  | e :: t, acc, h, hacc => by
    rw [List.foldl_cons]
    exact foldl_mapRecordStep_sport row t _
      (fun f hf => h f (List.mem_cons_of_mem _ hf))
      (mapRecordStep_sport hacc (h e (List.mem_cons_self _ _)))

theorem mapRecord_sport {cmap : List (JsString × JsString)} {row : Obj}
    (h : ∀ e ∈ cmap, e.1 = "sport".toList →
      e.2 = [] ∨ e.2 = "none".toList ∨ objGet row e.2 = none) :
    objGet (mapRecord cmap row) "sport".toList = none :=
  foldl_mapRecordStep_sport row cmap [] h rfl

theorem coerceStep_sport {rec : Obj} {k : JsString} {f : JsValue → Option ℚ}
    (hk : k ≠ "sport".toList) (h : objGet rec "sport".toList = none) :
    objGet (match objGet rec k with
            | some v => if v.truthy then objSet rec k (.num (f v)) else rec
            | none => rec) "sport".toList = none := by
  cases hg : objGet rec k with
  | some v =>
    show objGet (if v.truthy = true then objSet rec k (.num (f v)) else rec)
      "sport".toList = none
    by_cases ht : v.truthy = true
    · rw [if_pos ht]
      exact (objGet_objSet_ne hk).trans h
    · rw [if_neg ht]
      exact h
  | none => exact h

theorem coerceRecord_sport {rec : Obj} (h : objGet rec "sport".toList = none) :
    objGet (coerceRecord rec) "sport".toList = none := by
  unfold coerceRecord
  exact coerceStep_sport (by decide)
    (coerceStep_sport (by decide) (coerceStep_sport (by decide) h))

theorem insertCardSchema_no_sport {rec : Obj}
    (h : objGet rec "sport".toList = none) :
    insertCardSchema rec = none := by
  unfold insertCardSchema
  rw [h]
  cases expectStr (objGet rec "playerName".toList) <;> rfl

theorem processImportRecord_fail {rec : Obj} (h : insertCardSchema rec = none) :
    (processImportRecord rec).success = false ∧
    (processImportRecord rec).failData = some rec := by
  unfold processImportRecord
  rw [h]
  exact ⟨rfl, rfl⟩

/-- Claim C2, counterexample: with the sport field mapped to none and all
other required fields valid, the candidate record lacks sport, and the
pipeline reports the row as a failure instead of persisting it
with a schema-default sport; `insertCardSchema` has no default for the
non-null sport column. -/
theorem c2_counterexample :
    objGet (coerceRecord (mapRecord sportNoneMap rowJohnDoe)) "sport".toList = none ∧
    (importResults [rowJohnDoe] sportNoneMap).map ImportOutcome.success = [false] := by
  exact ⟨by decide, by decide⟩

/-- Claim C2 (amended): when every sport entry of the column mapping is
empty, the literal none, or a column absent from the row, the candidate
record lacks the sport field, and because sport is a required column with
no schema default the row fails validation and is reported as a failure
that carries the candidate record; it is not persisted. -/
theorem c2_sport_required (cmap : List (JsString × JsString)) (row : Obj)
    (h : ∀ e ∈ cmap, e.1 = "sport".toList →
      e.2 = [] ∨ e.2 = "none".toList ∨ objGet row e.2 = none) :
    objGet (coerceRecord (mapRecord cmap row)) "sport".toList = none ∧
    (processImportRecord (coerceRecord (mapRecord cmap row))).success = false ∧
    (processImportRecord (coerceRecord (mapRecord cmap row))).failData =
      some (coerceRecord (mapRecord cmap row)) := by
  have h2 := coerceRecord_sport (mapRecord_sport h)
  have h4 := processImportRecord_fail (insertCardSchema_no_sport h2)
  exact ⟨h2, h4.1, h4.2⟩

/-- Witness for the amended claim C2 at the concrete mapping and row. -/
theorem c2_sport_required_witness :
    objGet (coerceRecord (mapRecord sportNoneMap rowJohnDoe)) "sport".toList = none ∧
    (processImportRecord (coerceRecord (mapRecord sportNoneMap rowJohnDoe))).success = false ∧
    (processImportRecord (coerceRecord (mapRecord sportNoneMap rowJohnDoe))).failData =
      some (coerceRecord (mapRecord sportNoneMap rowJohnDoe)) :=
  c2_sport_required sportNoneMap rowJohnDoe (by decide)

/-- Claim C10: the import response carries exactly one outcome per parsed
row, positionally aligned with the rows, and the reported counts satisfy
successful plus failed equals the number of results. -/
theorem c10_import_results (records : List Obj)
    (columnMap : List (JsString × JsString)) :
    (importResults records columnMap).length = records.length ∧
    (∀ i : Nat, (importResults records columnMap)[i]? =
      (records[i]?).map
        (fun r => processImportRecord (coerceRecord (mapRecord columnMap r)))) ∧
    successfulCount (importResults records columnMap) +
      failedCount (importResults records columnMap) =
      (importResults records columnMap).length := by
  refine ⟨by simp [importResults], fun i => List.getElem?_map _ _ _, ?_⟩
  generalize importResults records columnMap = rs
  unfold successfulCount failedCount
  induction rs with
  | nil => rfl
  | cons r t ih =>
    by_cases h : r.success = true <;>
      simp [List.filter_cons, h, Nat.succ_eq_add_one] <;> omega

/-- Claim C8: a vision response with an empty or missing player name makes
the recognizer fail while still carrying the partially extracted card
next to the error, and a non-empty player name is necessary for success. -/
theorem c8_recognition_requires_player (d : CardData) (yearNow : Int) :
    ((d.playerName = none ∨ d.playerName = some []) →
      (identifyCardFromImage d yearNow).success = false ∧
      (identifyCardFromImage d yearNow).card = some (recognizedCardOf d yearNow) ∧
      (identifyCardFromImage d yearNow).error.isSome = true) ∧
    ((identifyCardFromImage d yearNow).success = true →
      (recognizedCardOf d yearNow).playerName ≠ []) := by
  constructor
  · intro h
    have he : (recognizedCardOf d yearNow).playerName.isEmpty = true := by
      rcases h with h | h <;> simp [recognizedCardOf, jsOrEmpty, h]
    simp only [identifyCardFromImage]
    rw [if_pos he]
    exact ⟨rfl, rfl, rfl⟩
  · intro hs hemp
    have he : (recognizedCardOf d yearNow).playerName.isEmpty = true := by
      rw [hemp]; rfl
    simp only [identifyCardFromImage] at hs
    rw [if_pos he] at hs
    simp at hs

/-- Witness for claim C8 at a vision response with no player name. -/
theorem c8_recognition_requires_player_witness :
    (identifyCardFromImage { playerName := none } 2025).success = false ∧
    (identifyCardFromImage { playerName := none } 2025).card =
      some (recognizedCardOf { playerName := none } 2025) ∧
    (identifyCardFromImage { playerName := none } 2025).error.isSome = true :=
  (c8_recognition_requires_player { playerName := none } 2025).1 (Or.inl rfl)

/-!
Helper lemmas about the price generator.
-/

theorem random_bounds {frac : Int → ℚ} {seed mn mx : Int}
    (h0 : 0 ≤ frac seed) (h1 : frac seed < 1) (hle : mn ≤ mx) :
    mn ≤ (random frac seed mn mx).1 ∧ (random frac seed mn mx).1 ≤ mx := by
  unfold random
  have hmn : (mn : ℚ) ≤ (mx : ℚ) := by exact_mod_cast hle
  have hL : (0 : ℚ) < (mx : ℚ) - (mn : ℚ) + 1 := by linarith
  constructor
  · apply Int.le_floor.mpr
    nlinarith
  · have hfl : (⌊frac seed * ((mx : ℚ) - (mn : ℚ) + 1) + (mn : ℚ)⌋ : Int) < mx + 1 := by
      apply Int.floor_lt.mpr
      push_cast
      nlinarith
    omega

theorem genItems_length (frac : Int → ℚ) (q : JsString) (bp : ℚ) :
    ∀ (n : Nat) (seed : Int), (genItems frac q bp n seed).1.length = n
  | 0, _ => rfl
  | n + 1, seed => by
    simp only [genItems, List.length_cons]
    rw [genItems_length frac q bp n]

theorem jsMin_le {l : List ℚ} {x : ℚ} (hx : x ∈ l) : jsMin l ≤ x := by
  induction l with
  | nil => cases hx
  | cons a t ih =>
    cases t with
    | nil =>
      rw [List.mem_singleton.mp hx]
      exact le_refl _
    | cons b u =>
      rcases List.mem_cons.mp hx with rfl | hx2
      · exact min_le_left _ _
      · exact le_trans (min_le_right _ _) (ih hx2)

theorem le_jsMax {l : List ℚ} {x : ℚ} (hx : x ∈ l) : x ≤ jsMax l := by
  induction l with
  | nil => cases hx
  | cons a t ih =>
    cases t with
    | nil =>
      rw [List.mem_singleton.mp hx]
      exact le_refl _
    | cons b u =>
      rcases List.mem_cons.mp hx with rfl | hx2
      · exact le_max_left _ _
      · exact le_trans (ih hx2) (le_max_right _ _)

theorem getD_mem_of_lt {l : List ℚ} {n : Nat} (h : n < l.length) (d : ℚ) :
    l.getD n d ∈ l := by
  rw [List.getD_eq_getElem?_getD, List.getElem?_eq_getElem h]
  exact List.getElem_mem h

theorem jsMedian_bounds {prices : List ℚ} (hne : prices ≠ []) :
    jsMin prices ≤ jsMedian (jsSortNums prices) ∧
    jsMedian (jsSortNums prices) ≤ jsMax prices := by
  have hlen : (jsSortNums prices).length = prices.length :=
    List.length_mergeSort _
  have hmem : ∀ x ∈ jsSortNums prices, x ∈ prices :=
    fun x hx => List.mem_mergeSort.mp hx
  have hpos : 0 < prices.length := List.length_pos.mpr hne
  unfold jsMedian
  by_cases he : (jsSortNums prices).length % 2 = 0
  · rw [if_pos (by simpa using he)]
    have hm1 : (jsSortNums prices).length / 2 - 1 < (jsSortNums prices).length := by
      omega
    have hm2 : (jsSortNums prices).length / 2 < (jsSortNums prices).length := by
      omega
    have a1 := hmem _ (getD_mem_of_lt hm1 0)
    have a2 := hmem _ (getD_mem_of_lt hm2 0)
    constructor
    · have b1 := jsMin_le a1
      have b2 := jsMin_le a2
      linarith
    · have b1 := le_jsMax a1
      have b2 := le_jsMax a2
      linarith
  · rw [if_neg (by simpa using he)]
    have hm2 : (jsSortNums prices).length / 2 < (jsSortNums prices).length := by
      omega
    have a2 := hmem _ (getD_mem_of_lt hm2 0)
    exact ⟨jsMin_le a2, le_jsMax a2⟩

theorem jsIndex_getD_mem {l : List JsString} {i : Int} (h0 : 0 ≤ i)
    (hlt : i < (l.length : Int)) (d : JsString) : (jsIndex l i).getD d ∈ l := by
  unfold jsIndex
  rw [if_neg (by omega)]
  have hn : i.toNat < l.length := by omega
  rw [List.getElem?_eq_getElem hn]
  exact List.getElem_mem hn

theorem jsIndex_isSome {l : List JsString} {i : Int} (h0 : 0 ≤ i)
    (hlt : i < (l.length : Int)) : (jsIndex l i).isSome = true := by
  unfold jsIndex
  rw [if_neg (by omega)]
  have hn : i.toNat < l.length := by omega
  rw [List.getElem?_eq_getElem hn]
  rfl

theorem genItem_date_mem {frac : Int → ℚ} (hfrac : ∀ k, 0 ≤ frac k ∧ frac k < 1)
    (q : JsString) (bp : ℚ) (seed : Int) :
    (genItem frac q bp seed).1.date ∈ dates := by
  simp only [genItem]
  apply jsIndex_getD_mem
  · exact (random_bounds (hfrac _).1 (hfrac _).2 (by decide)).1
  · exact lt_of_le_of_lt
      (random_bounds (hfrac _).1 (hfrac _).2 (by decide)).2 (by omega)

theorem genItems_date_mem {frac : Int → ℚ} (hfrac : ∀ k, 0 ≤ frac k ∧ frac k < 1)
    (q : JsString) (bp : ℚ) :
    ∀ (n : Nat) (seed : Int), ∀ item ∈ (genItems frac q bp n seed).1,
      item.date ∈ dates
  | 0, _ => by intro item h; cases h
  | n + 1, seed => by
    intro item h
    simp only [genItems] at h
    rcases List.mem_cons.mp h with rfl | h2
    · exact genItem_date_mem hfrac q bp seed
    · exact genItems_date_mem hfrac q bp n _ item h2

theorem generatedItems_length_pos {frac : Int → ℚ}
    (hfrac : ∀ k, 0 ≤ frac k ∧ frac k < 1) (q : JsString) :
    0 < (generatedItems frac q).length := by
  have h5 : (5 : Int) ≤
      (random frac (random frac (initialSeed q) (-20) 20).2 5 15).1 :=
    (random_bounds (hfrac _).1 (hfrac _).2 (by decide)).1
  simp only [generatedItems, genItems_length]
  omega

/-- Claim C4: the aggregate statistics of the price analysis are computed
over the full generated item set, the median follows the even and odd
middle rules on the price-sorted sequence, and consequently the minimum
is at most the median, which is at most the maximum. -/
theorem c4_statistics (frac : Int → ℚ) (hfrac : ∀ k, 0 ≤ frac k ∧ frac k < 1)
    (q : JsString) :
    (scrapeEbayPrices frac q).averagePrice =
      jsSum ((generatedItems frac q).map EbaySoldItem.price) /
        (((generatedItems frac q).map EbaySoldItem.price).length : ℚ) ∧
    (scrapeEbayPrices frac q).minPrice =
      jsMin ((generatedItems frac q).map EbaySoldItem.price) ∧
    (scrapeEbayPrices frac q).maxPrice =
      jsMax ((generatedItems frac q).map EbaySoldItem.price) ∧
    (scrapeEbayPrices frac q).medianPrice =
      jsMedian (jsSortNums ((generatedItems frac q).map EbaySoldItem.price)) ∧
    (scrapeEbayPrices frac q).minPrice ≤ (scrapeEbayPrices frac q).medianPrice ∧
    (scrapeEbayPrices frac q).medianPrice ≤ (scrapeEbayPrices frac q).maxPrice := by
  have hne : (generatedItems frac q).map EbaySoldItem.price ≠ [] := by
    have hpos := generatedItems_length_pos hfrac q
    intro h
    have : (generatedItems frac q).length = 0 := by
      simpa using congrArg List.length h
    omega
  have hb := jsMedian_bounds hne
  exact ⟨rfl, rfl, rfl, rfl, hb.1, hb.2⟩

/-- Witness for claim C4 with the zero oracle and the query psa. -/
theorem c4_statistics_witness :
    (scrapeEbayPrices (fun _ => 0) "psa".toList).averagePrice =
      jsSum ((generatedItems (fun _ => 0) "psa".toList).map EbaySoldItem.price) /
        (((generatedItems (fun _ => 0) "psa".toList).map EbaySoldItem.price).length : ℚ) ∧
    (scrapeEbayPrices (fun _ => 0) "psa".toList).minPrice =
      jsMin ((generatedItems (fun _ => 0) "psa".toList).map EbaySoldItem.price) ∧
    (scrapeEbayPrices (fun _ => 0) "psa".toList).maxPrice =
      jsMax ((generatedItems (fun _ => 0) "psa".toList).map EbaySoldItem.price) ∧
    (scrapeEbayPrices (fun _ => 0) "psa".toList).medianPrice =
      jsMedian (jsSortNums ((generatedItems (fun _ => 0) "psa".toList).map EbaySoldItem.price)) ∧
    (scrapeEbayPrices (fun _ => 0) "psa".toList).minPrice ≤
      (scrapeEbayPrices (fun _ => 0) "psa".toList).medianPrice ∧
    (scrapeEbayPrices (fun _ => 0) "psa".toList).medianPrice ≤
      (scrapeEbayPrices (fun _ => 0) "psa".toList).maxPrice :=
  c4_statistics (fun _ => 0) (fun _ => ⟨le_refl 0, zero_lt_one⟩) "psa".toList

/-- Claim C5: the returned item list is truncated to at most ten entries,
while totalResults is the untruncated generated count, so totalResults is
at least the returned length. -/
theorem c5_truncation (frac : Int → ℚ) (q : JsString) :
    (scrapeEbayPrices frac q).items.length ≤ 10 ∧
    (scrapeEbayPrices frac q).totalResults = (generatedItems frac q).length ∧
    (scrapeEbayPrices frac q).items.length ≤ (scrapeEbayPrices frac q).totalResults := by
  refine ⟨?_, rfl, ?_⟩
  · show ((generatedItems frac q).take 10).length ≤ 10
    simp [List.length_take]
  · show ((generatedItems frac q).take 10).length ≤ (generatedItems frac q).length
    simp [List.length_take]

/-- Claim C6: the price analysis is a pure function of the search string
for a fixed sine oracle, so two calls on identical strings give identical
results; the generator seed is exactly the character-code sum of the
query. -/
theorem c6_determinism (frac : Int → ℚ) (q1 q2 : JsString) (h : q1 = q2) :
    scrapeEbayPrices frac q1 = scrapeEbayPrices frac q2 ∧
    initialSeed q1 = ((q1.map Char.toNat).sum : Nat) :=
  ⟨by rw [h], rfl⟩

/-- Witness for claim C6 with the zero oracle on a concrete query. -/
theorem c6_determinism_witness :
    scrapeEbayPrices (fun _ => 0) "2018 Topps Chrome PSA 10".toList =
      scrapeEbayPrices (fun _ => 0) "2018 Topps Chrome PSA 10".toList ∧
    initialSeed "2018 Topps Chrome PSA 10".toList =
      (("2018 Topps Chrome PSA 10".toList.map Char.toNat).sum : Nat) :=
  c6_determinism (fun _ => 0) _ _ rfl

/-- Claim C9: under the real-semantics oracle bounds, the generator
returns an integer in the requested inclusive range whenever the range is
non-degenerate; array selection at a generated index over a nonempty pool
is always defined; and in particular every generated item carries a date
from the fixed date pool. -/
theorem c9_random_in_range (frac : Int → ℚ)
    (hfrac : ∀ k, 0 ≤ frac k ∧ frac k < 1) :
    (∀ seed mn mx : Int, mn ≤ mx →
      mn ≤ (random frac seed mn mx).1 ∧ (random frac seed mn mx).1 ≤ mx) ∧
    (∀ (l : List JsString) (seed : Int), l ≠ [] →
      (jsIndex l (random frac seed 0 ((l.length : Int) - 1)).1).isSome = true) ∧
    (∀ q : JsString, ∀ item ∈ (scrapeEbayPrices frac q).items,
      item.date ∈ dates) := by
  refine ⟨fun seed mn mx hle => random_bounds (hfrac _).1 (hfrac _).2 hle, ?_, ?_⟩
  · intro l seed hne
    have hpos : 0 < l.length := List.length_pos.mpr hne
    have hmx : (0 : Int) ≤ (l.length : Int) - 1 := by omega
    have hb := random_bounds (hfrac seed).1 (hfrac seed).2 hmx
    exact jsIndex_isSome hb.1 (lt_of_le_of_lt hb.2 (by omega))
  · intro q item hitem
    have hfull : item ∈ generatedItems frac q :=
      List.take_subset 10 _ hitem
    have : item ∈ (genItems frac q
        (computeBasePrice q * (1 + ((random frac (initialSeed q) (-20) 20).1 : ℚ) / 100))
        (random frac (random frac (initialSeed q) (-20) 20).2 5 15).1.toNat
        (random frac (random frac (initialSeed q) (-20) 20).2 5 15).2).1 := hfull
    exact genItems_date_mem hfrac q _ _ _ item this

/-- Witness for claim C9 with the zero oracle. -/
theorem c9_random_in_range_witness :
    (∀ seed mn mx : Int, mn ≤ mx →
      mn ≤ (random (fun _ => 0) seed mn mx).1 ∧
        (random (fun _ => 0) seed mn mx).1 ≤ mx) ∧
    (∀ (l : List JsString) (seed : Int), l ≠ [] →
      (jsIndex l (random (fun _ => 0) seed 0 ((l.length : Int) - 1)).1).isSome = true) ∧
    (∀ q : JsString, ∀ item ∈ (scrapeEbayPrices (fun _ => 0) q).items,
      item.date ∈ dates) :=
  c9_random_in_range (fun _ => 0) (fun _ => ⟨le_refl 0, zero_lt_one⟩)
